import Mathlib

/-
Verification of the embeddability-aware URL preview extension.

The definitions below are a shallow embedding of src/src/extension.ts:
strings are modelled as `List Char`, the JavaScript string operations used
by the source (replace, includes, toLowerCase, trim, the regex literals)
are modelled as executable Lean functions, and the asynchronous orchestration
is modelled by passing the probe outcome and the fetch response explicitly.
-/

set_option maxRecDepth 16384

namespace UrlPreview

/-- Whitespace class used by the JavaScript regexes (\s) and String.trim,
restricted to the ASCII range that HTTP header values and user input use. -/
def isSpace (c : Char) : Bool :=
  c = ' ' || c = '\t' || c = '\n' || c = '\r' || c = '\x0b' || c = '\x0c'

/-- s.toLowerCase() of JavaScript, on the ASCII range. -/
def toLowerList (s : List Char) : List Char := s.map Char.toLower

/-- hay.includes(needle) of JavaScript: substring containment. -/
def strContains (hay needle : List Char) : Bool :=
  match hay with
  | [] => needle.isEmpty
  | c :: t => needle.isPrefixOf (c :: t) || strContains t needle

/-- s.trim() of JavaScript: strip leading and trailing whitespace. -/
def trimWs (s : List Char) : List Char :=
  ((s.dropWhile isSpace).reverse.dropWhile isSpace).reverse

/-- s.replace(/c/g, r): replace every occurrence of the character c by r. -/
def replaceAll (s : List Char) (c : Char) (r : List Char) : List Char :=
  match s with
  | [] => []
  | x :: t => (if x = c then r else [x]) ++ replaceAll t c r

/-- escapeHtml of src/src/extension.ts: four chained global replacements. -/
def escapeHtml (s : List Char) : List Char :=
  replaceAll (replaceAll (replaceAll (replaceAll s
    '&' ("&amp;".toList))
    '<' ("&lt;".toList))
    '>' ("&gt;".toList))
    '"' ("&quot;".toList)

/-- Response headers in iteration order, as handed to res.headers.forEach. -/
abbrev Headers := List (List Char × List Char)

/-- Models `headers[k.toLowerCase()] = v` over res.headers.forEach followed by
a lookup: keys are compared lowercased and a later entry overwrites an
earlier one. -/
def getHeader (hs : Headers) (name : List Char) : Option (List Char) :=
  hs.foldl (fun acc kv => if toLowerList kv.1 = name then some kv.2 else acc) none

def xfoName : List Char := "x-frame-options".toList

def cspName : List Char := "content-security-policy".toList

def noneTok : List Char := "\x27none\x27".toList

def selfTok : List Char := "\x27self\x27".toList

/-- The X-Frame-Options test of isEmbeddable: the lowercased value contains
deny, sameorigin or same-site. -/
def xfoBlocks (v : List Char) : Bool :=
  strContains (toLowerList v) ("deny".toList)
    || strContains (toLowerList v) ("sameorigin".toList)
    || strContains (toLowerList v) ("same-site".toList)

def faKey : List Char := "frame-ancestors".toList

/-- One attempt of the tail \s+([^;]+) of /frame-ancestors\s+([^;]+)/ on the
text that follows an occurrence of "frame-ancestors". The greedy \s+ consumes
the whole whitespace run, backtracking by exactly one character when the
following [^;]+ would otherwise be empty. -/
def faValue (rest : List Char) : Option (List Char) :=
  let p := rest.takeWhile (fun c => c ≠ ';')
  match rest.head? with
  | some c =>
      if isSpace c ∧ 2 ≤ p.length then
        some (p.drop (min ((rest.takeWhile isSpace).length) (p.length - 1)))
      else none
  | none => none

/-- csp.match(/frame-ancestors\s+([^;]+)/): left-to-right first-match scan,
returning capture group 1. -/
def faScan (s : List Char) : Option (List Char) :=
  match s with
  | [] => none
  | c :: t =>
      if faKey.isPrefixOf (c :: t) then
        match faValue ((c :: t).drop faKey.length) with
        | some v => some v
        | none => faScan t
      else faScan t

/-- /^\s*'self'\s*$/.test(anc): the value is exactly 'self' up to surrounding
whitespace. -/
def selfOnly (anc : List Char) : Bool := trimWs anc = selfTok

/-- The frame-ancestors test of isEmbeddable on a present CSP value: the
lowercased value is matched against /frame-ancestors\s+([^;]+)/ and the
capture blocks when it contains 'none' or consists of exactly 'self'. -/
def cspBlocks (v : List Char) : Bool :=
  match faScan (toLowerList v) with
  | some ancestors => strContains ancestors noneTok || selfOnly ancestors
  | none => false

/-- The guard `if (headers['x-frame-options']) { ... return false; }`:
in JavaScript a missing key and an empty-string value are both falsy. -/
def xfoBlocked (hs : Headers) : Bool :=
  match getHeader hs xfoName with
  | some v => !v.isEmpty && xfoBlocks v
  | none => false

/-- The guard `if (headers['content-security-policy']) { ... }` of
isEmbeddable, returning whether the body reaches `return false`. -/
def cspBlocked (hs : Headers) : Bool :=
  match getHeader hs cspName with
  | some v => !v.isEmpty && cspBlocks v
  | none => false

/-- The header inspection of isEmbeddable (src/src/extension.ts lines 26-49)
as a pure function of the received headers; true means embeddable. -/
def classify (hs : Headers) : Bool :=
  if xfoBlocked hs then false
  else if cspBlocked hs then false
  else true

/-- The outcome of the HEAD/GET probe: either an error raised while fetching
(exception or timeout, carrying its message) or the response headers. -/
inductive ProbeOutcome : Type where
  | failure : String → ProbeOutcome
  | success : Headers → ProbeOutcome

/-- isEmbeddable including its catch handler: any raised error yields false. -/
def isEmbeddableOutcome : ProbeOutcome → Bool
  | .failure _ => false
  | .success hs => classify hs

/-- The embeddability decision enum of the specification. -/
inductive EmbedDecision : Type where
  | Embeddable : EmbedDecision
  | NotEmbeddable : EmbedDecision
  deriving DecidableEq

/-- The decision derived from a probe outcome. -/
def embedDecision (o : ProbeOutcome) : EmbedDecision :=
  if isEmbeddableOutcome o then .Embeddable else .NotEmbeddable

/-- One attempt of /<head[^>]*>/i at the start of s: the match length when the
pattern matches here (the literal <head case-insensitively, then a greedy run
of non-> characters, then >). -/
def headTagAt (s : List Char) : Option Nat :=
  if toLowerList (s.take 5) = "<head".toList then
    let run := ((s.drop 5).takeWhile (fun c => c ≠ '>')).length
    if (s.drop (5 + run)).head? = some '>' then some (5 + run + 1) else none
  else none

/-- First-match search for /<head[^>]*>/i: the index and length of the first
match, scanning left to right as headTag.test / String.replace do. -/
def headTagSearch (s : List Char) : Option (Nat × Nat) :=
  match s with
  | [] => none
  | c :: t =>
      match headTagAt (c :: t) with
      | some len => some (0, len)
      | none => (headTagSearch t).map (fun p => (p.1 + 1, p.2))

/-- No match of /<head[^>]*>/i starts at any of the offsets 0..i-1 of s. -/
def noHeadTagBefore (s : List Char) (i : Nat) : Bool :=
  match i, s with
  | 0, _ => true
  | _ + 1, [] => true
  | i + 1, c :: t => ((headTagAt (c :: t)).isNone) && noHeadTagBefore t i

/-- The injected base element: `<base href="${escapeHtml(targetUrl)}">`. -/
def baseTag (targetUrl : List Char) : List Char :=
  ("<base href=\"").toList ++ escapeHtml targetUrl ++ ("\">").toList

/-- Lines 64-69 of src/src/extension.ts: if /<head[^>]*>/i matches, replace
the first match m by m + baseTag, otherwise prepend baseTag to the document. -/
def injectBase (raw targetUrl : List Char) : List Char :=
  match headTagSearch raw with
  | some (i, len) => raw.take (i + len) ++ baseTag targetUrl ++ raw.drop (i + len)
  | none => baseTag targetUrl ++ raw

/-- The wrapper shell of fetchHtmlAndInjectBase, up to the body insertion. -/
def wrapHead : List Char :=
  ("<!doctype html>\n<html>\n  <head>\n    <meta charset=\"utf-8\" />\n    <meta http-equiv=\"Content-Security-Policy\" content=\"default-src \x27none\x27; img-src https: data: blob:; font-src https: data:; style-src \x27unsafe-inline\x27 https:; script-src \x27unsafe-inline\x27 \x27unsafe-eval\x27 https:;\">\n  </head>\n  <body>").toList

/-- The wrapper shell of fetchHtmlAndInjectBase, after the body insertion. -/
def wrapTail : List Char := ("</body>\n</html>").toList

/-- The whole HTML transformation of fetchHtmlAndInjectBase on a fetched body. -/
def injectAndWrap (raw targetUrl : List Char) : List Char :=
  wrapHead ++ injectBase raw targetUrl ++ wrapTail

/-- The GET response consumed by fetchHtmlAndInjectBase. -/
structure FetchResponse : Type where
  status : Nat
  statusText : List Char
  body : List Char

/-- res.ok of the fetch API: the status is in the 2xx success range. -/
def resOk (status : Nat) : Bool := 200 ≤ status && status ≤ 299

/-- The thrown message `HTTP ${res.status} ${res.statusText}`. -/
def httpErrorMessage (status : Nat) (statusText : List Char) : List Char :=
  ("HTTP ").toList ++ ((Nat.repr status).toList ++ ((" ").toList ++ statusText))

/-- fetchHtmlAndInjectBase as a function of the GET response: a non-ok status
throws the HTTP error, an ok status yields the rewritten wrapped document. -/
def fetchHtmlAndInjectBase (res : FetchResponse) (targetUrl : List Char) :
    Except (List Char) (List Char) :=
  if resOk res.status then .ok (injectAndWrap res.body targetUrl)
  else .error (httpErrorMessage res.status res.statusText)

/-- The error document of activate, up to the inserted message. -/
def errHead : List Char :=
  ("<html><body style=\"font-family:sans-serif;padding:16px;\"><h3>取得に失敗しました</h3><pre>").toList

/-- The error document of activate, after the inserted message. -/
def errTail : List Char := ("</pre></body></html>").toList

/-- The not-embeddable branch of activate: try fetchHtmlAndInjectBase and on
an error show the escaped message inside the error document. -/
def notEmbeddableDocument (res : FetchResponse) (targetUrl : List Char) : List Char :=
  match fetchHtmlAndInjectBase res targetUrl with
  | .ok html => html
  | .error msg => errHead ++ escapeHtml msg ++ errTail

/-- The iframe document of activate (lines 113-123), before the raw URL
interpolated into the CSP meta element. -/
def iframeSegA : List Char :=
  ("<!doctype html>\n<html>\n  <head>\n    <meta charset=\"utf-8\" />\n    <meta http-equiv=\"Content-Security-Policy\" content=\"default-src \x27none\x27; frame-src ").toList

/-- The iframe document between the CSP interpolation and the escaped URL of
the iframe src attribute. -/
def iframeSegB : List Char :=
  (" http: https: data:; style-src \x27unsafe-inline\x27 http: https:; script-src \x27unsafe-inline\x27 http: https:;\">\n    <style>html,body,iframe\x7bheight:100%;margin:0;padding:0;border:0\x7d iframe\x7bwidth:100%;\x7d</style>\n  </head>\n  <body>\n    <iframe src=\"").toList

/-- The iframe document after the escaped URL of the src attribute. -/
def iframeSegC : List Char :=
  ("\" frameborder=\"0\"></iframe>\n  </body>\n</html>").toList

/-- The embeddable branch of activate: the iframe document with the raw URL in
the CSP meta element and the escaped URL in the iframe src attribute. -/
def iframeHtml (targetUrl : List Char) : List Char :=
  iframeSegA ++ targetUrl ++ (iframeSegB ++ (escapeHtml targetUrl ++ iframeSegC))

/-- The document activate finally assigns to the panel, as a function of the
probe outcome and, when fetching, of the GET response. -/
def previewDocument (targetUrl : List Char) (probe : ProbeOutcome)
    (res : FetchResponse) : List Char :=
  if isEmbeddableOutcome probe then iframeHtml targetUrl
  else notEmbeddableDocument res targetUrl

/-- The outcome of activate's input handling. -/
inductive InputResult : Type where
  | rejected : InputResult
  | accepted : List Char → InputResult
  deriving DecidableEq

def httpsScheme : List Char := "https://".toList

/-- /^https?:\/\//i .test(s): s starts with http:// or https://, any casing. -/
def hasHttpScheme (s : List Char) : Bool :=
  ("http://".toList).isPrefixOf (toLowerList s)
    || ("https://".toList).isPrefixOf (toLowerList s)

/-- activate's input handling (lines 88-92): `if (!input) return;` rejects the
falsy empty string, then the input is trimmed and https:// is prefixed when no
http(s) scheme is present. -/
def normalizeInput (input : List Char) : InputResult :=
  if input.isEmpty then .rejected
  else
    let t := trimWs input
    if hasHttpScheme t then .accepted t else .accepted (httpsScheme ++ t)

/-- The HTML entity each escaped character maps to, following the wording of
the specification (escape each of the four characters before insertion). -/
def htmlEntity (c : Char) : List Char :=
  if c = '&' then "&amp;".toList
  else if c = '<' then "&lt;".toList
  else if c = '>' then "&gt;".toList
  else if c = '"' then "&quot;".toList
  else [c]

/-- Character-by-character entity substitution, following the specification's
wording; compared with the source's escapeHtml below. -/
def escapeHtmlSpec (s : List Char) : List Char :=
  match s with
  | [] => []
  | c :: t => htmlEntity c ++ escapeHtmlSpec t

/-- A character that is not one of the raw specials <, > and double quote. -/
def notSpecial (c : Char) : Bool := !(c == '<' || c == '>' || c == '"')

/-- The claim-side condition of C4: the content-security-policy header, when
present, has no frame-ancestors directive (the source's extraction regex does
not match). -/
def noFrameAncestors (hs : Headers) : Bool :=
  match getHeader hs cspName with
  | some v => (faScan (toLowerList v)).isNone
  | none => true

theorem isPrefixOf_append_self (p r : List Char) : p.isPrefixOf (p ++ r) = true := by
  induction p with
  | nil => simp [List.isPrefixOf]
  | cons c t ih => simp [List.isPrefixOf, ih]

theorem strContains_nil_needle (hay : List Char) : strContains hay [] = true := by
  cases hay <;> simp [strContains, List.isPrefixOf, List.isEmpty]

theorem strContains_append_middle (pre needle suf : List Char) :
    strContains (pre ++ (needle ++ suf)) needle = true := by
  induction pre with
  | nil =>
      cases needle with
      | nil => simpa using strContains_nil_needle suf
      | cons n ns =>
          simp only [List.nil_append, List.cons_append, strContains, List.append_eq]
          rw [show n :: (ns ++ suf) = (n :: ns) ++ suf from rfl,
            isPrefixOf_append_self, Bool.true_or]
  | cons p ps ih =>
      simp only [List.cons_append, strContains, List.append_eq]
      rw [ih, Bool.or_true]

theorem replaceAll_append (a b : List Char) (c : Char) (r : List Char) :
    replaceAll (a ++ b) c r = replaceAll a c r ++ replaceAll b c r := by
  induction a with
  | nil => rfl
  | cons x t ih => simp [replaceAll, ih, List.append_assoc]

theorem escapeHtml_cons (x : Char) (t : List Char) :
    escapeHtml (x :: t) = htmlEntity x ++ escapeHtml t := by
  unfold escapeHtml
  rw [show replaceAll (x :: t) '&' ("&amp;".toList)
        = (if x = '&' then "&amp;".toList else [x]) ++ replaceAll t '&' ("&amp;".toList)
      from rfl]
  rw [replaceAll_append, replaceAll_append, replaceAll_append]
  congr 1
  by_cases h1 : x = '&'
  · subst h1; decide
  · rw [if_neg h1]
    by_cases h2 : x = '<'
    · subst h2; decide
    · by_cases h3 : x = '>'
      · subst h3; decide
      · by_cases h4 : x = '"'
        · subst h4; decide
        · simp [replaceAll, htmlEntity, h1, h2, h3, h4]

theorem escapeHtml_eq_spec (s : List Char) : escapeHtml s = escapeHtmlSpec s := by
  induction s with
  | nil => rfl
  | cons x t ih => rw [escapeHtml_cons, ih]; rfl

theorem htmlEntity_all (x : Char) : (htmlEntity x).all notSpecial = true := by
  by_cases h1 : x = '&'
  · subst h1; decide
  · by_cases h2 : x = '<'
    · subst h2; decide
    · by_cases h3 : x = '>'
      · subst h3; decide
      · by_cases h4 : x = '"'
        · subst h4; decide
        · simp [htmlEntity, h1, h2, h3, h4, notSpecial]

theorem escapeHtml_no_special (s : List Char) :
    (escapeHtml s).all notSpecial = true := by
  induction s with
  | nil => rfl
  | cons x t ih => rw [escapeHtml_cons, List.all_append]; simp [htmlEntity_all x, ih]

theorem headTagSearch_first (s : List Char) (i len : Nat)
    (h : headTagSearch s = some (i, len)) :
    headTagAt (List.drop i s) = some len ∧ noHeadTagBefore s i = true := by
  induction s generalizing i with
  | nil => simp [headTagSearch] at h
  | cons c t ih =>
      rw [headTagSearch] at h
      cases hat : headTagAt (c :: t) with
      | some l =>
          rw [hat] at h
          simp only [Option.some.injEq, Prod.mk.injEq] at h
          obtain ⟨hi, hl⟩ := h
          subst hi; subst hl
          exact ⟨hat, rfl⟩
      | none =>
          rw [hat] at h
          cases hs : headTagSearch t with
          | none => rw [hs] at h; simp at h
          | some p =>
              rw [hs] at h
              simp only [Option.map_some', Option.some.injEq] at h
              obtain ⟨i', l'⟩ := p
              obtain ⟨hi, hl⟩ := Prod.mk.injEq .. ▸ h
              subst hl
              have := ih i' hs
              rw [← hi]
              refine ⟨by simpa using this.1, ?_⟩
              simp [noHeadTagBefore, hat, this.2]

/-- C1: for every probe attempt that fails with an exception or timeout, the
embeddability classification is NotEmbeddable (the fail-closed default), and
the boolean isEmbeddable result is false, never Embeddable. -/
theorem probe_failure_fail_closed (e : String) :
    embedDecision (ProbeOutcome.failure e) = EmbedDecision.NotEmbeddable
    ∧ isEmbeddableOutcome (ProbeOutcome.failure e) = false :=
  ⟨rfl, rfl⟩

/-- C2: whenever the x-frame-options header is present and its lowercased
value contains deny, sameorigin or same-site (whatever the original casing),
the classifier returns NotEmbeddable. -/
theorem xfo_blocks_not_embeddable (hs : Headers) (v : List Char)
    (hx : getHeader hs xfoName = some v)
    (hb : strContains (toLowerList v) ("deny".toList) = true
        ∨ strContains (toLowerList v) ("sameorigin".toList) = true
        ∨ strContains (toLowerList v) ("same-site".toList) = true) :
    embedDecision (ProbeOutcome.success hs) = EmbedDecision.NotEmbeddable := by
  have hv : v.isEmpty = false := by
    cases v with
    | nil => rcases hb with h | h | h <;> exact absurd h (by decide)
    | cons a b => rfl
  have hblk : xfoBlocks v = true := by
    rcases hb with h | h | h <;> simp only [xfoBlocks, h, Bool.true_or, Bool.or_true]
  simp [embedDecision, isEmbeddableOutcome, classify, xfoBlocked, hx, hv, hblk]

/-- Witness for C2 at the header set x-frame-options: DENY in capital casing. -/
theorem xfo_blocks_witness :
    embedDecision (ProbeOutcome.success [("X-Frame-Options".toList, "DENY".toList)])
      = EmbedDecision.NotEmbeddable :=
  xfo_blocks_not_embeddable _ ("DENY".toList) (by decide) (Or.inl (by decide))

/-- C3: with no x-frame-options header, when the content-security-policy value
yields a frame-ancestors capture that contains 'none' or is exactly 'self' up
to surrounding whitespace, the classifier returns NotEmbeddable; and on
frame-ancestors 'self' https://a.example it returns Embeddable. -/
theorem csp_blocks_not_embeddable (hs : Headers) (v anc : List Char)
    (hx : getHeader hs xfoName = none)
    (hc : getHeader hs cspName = some v)
    (hf : faScan (toLowerList v) = some anc)
    (hb : strContains anc noneTok = true ∨ selfOnly anc = true) :
    embedDecision (ProbeOutcome.success hs) = EmbedDecision.NotEmbeddable
    ∧ embedDecision (ProbeOutcome.success
        [(cspName, ("frame-ancestors \x27self\x27 https://a.example").toList)])
      = EmbedDecision.Embeddable := by
  constructor
  · have hv : v.isEmpty = false := by
      cases v with
      | nil => exact Option.noConfusion ((show faScan (toLowerList []) = none by decide).symm.trans hf)
      | cons a b => rfl
    have hblk : cspBlocks v = true := by
      rcases hb with h | h <;> simp [cspBlocks, hf, h]
    simp [embedDecision, isEmbeddableOutcome, classify, xfoBlocked, cspBlocked,
      hx, hc, hv, hblk]
  · decide

/-- Witness for C3 at a header set whose only header carries a frame-ancestors
'none' directive. -/
theorem csp_blocks_witness :
    embedDecision (ProbeOutcome.success
        [(cspName, ("frame-ancestors \x27none\x27").toList)])
      = EmbedDecision.NotEmbeddable
    ∧ embedDecision (ProbeOutcome.success
        [(cspName, ("frame-ancestors \x27self\x27 https://a.example").toList)])
      = EmbedDecision.Embeddable :=
  csp_blocks_not_embeddable _ (("frame-ancestors \x27none\x27").toList) noneTok
    (by decide) (by decide) (by decide) (Or.inl (by decide))

/-- C4: with no x-frame-options header and no frame-ancestors directive in the
content-security-policy header (when one is present at all), the classifier
returns Embeddable. -/
theorem default_embeddable (hs : Headers)
    (hx : getHeader hs xfoName = none)
    (hc : noFrameAncestors hs = true) :
    embedDecision (ProbeOutcome.success hs) = EmbedDecision.Embeddable := by
  cases hg : getHeader hs cspName with
  | none =>
      simp [embedDecision, isEmbeddableOutcome, classify, xfoBlocked, cspBlocked, hx, hg]
  | some v =>
      have hfa : faScan (toLowerList v) = none := by
        simpa [noFrameAncestors, hg, Option.isNone_iff_eq_none] using hc
      simp [embedDecision, isEmbeddableOutcome, classify, xfoBlocked, cspBlocked,
        hx, hg, cspBlocks, hfa]

/-- Witness for C4 at a header set carrying only an unrelated header. -/
theorem default_embeddable_witness :
    embedDecision (ProbeOutcome.success [("content-type".toList, "text/html".toList)])
      = EmbedDecision.Embeddable :=
  default_embeddable _ (by decide) (by decide)

/-- C5: when /<head[^>]*>/i has a first match in the input, the wrapped output
is the input with the base element inserted immediately after that match (the
match is at the earliest offset, and the surrounding markup is unchanged);
with no match the base element is prepended to the document start. -/
theorem rewriter_base_insertion (raw targetUrl : List Char) :
    (∀ i len, headTagSearch raw = some (i, len) →
        injectAndWrap raw targetUrl
            = wrapHead ++ (List.take (i + len) raw ++ baseTag targetUrl
                ++ List.drop (i + len) raw) ++ wrapTail
          ∧ List.take (i + len) raw ++ List.drop (i + len) raw = raw
          ∧ headTagAt (List.drop i raw) = some len
          ∧ noHeadTagBefore raw i = true)
    ∧ (headTagSearch raw = none →
        injectAndWrap raw targetUrl
          = wrapHead ++ (baseTag targetUrl ++ raw) ++ wrapTail) := by
  constructor
  · intro i len h
    refine ⟨?_, List.take_append_drop _ _, (headTagSearch_first raw i len h).1,
      (headTagSearch_first raw i len h).2⟩
    simp [injectAndWrap, injectBase, h]
  · intro h
    simp [injectAndWrap, injectBase, h]

/-- Witness for C5 on markup whose first head tag starts at offset 3 with
length 6. -/
theorem rewriter_base_insertion_witness :
    injectAndWrap ("<p><head>x".toList) ("https://e.com/p".toList)
        = wrapHead ++ (List.take (3 + 6) ("<p><head>x".toList)
            ++ baseTag ("https://e.com/p".toList)
            ++ List.drop (3 + 6) ("<p><head>x".toList)) ++ wrapTail
      ∧ List.take (3 + 6) ("<p><head>x".toList) ++ List.drop (3 + 6) ("<p><head>x".toList)
          = ("<p><head>x".toList)
      ∧ headTagAt (List.drop 3 ("<p><head>x".toList)) = some 6
      ∧ noHeadTagBefore ("<p><head>x".toList) 3 = true :=
  (rewriter_base_insertion ("<p><head>x".toList) ("https://e.com/p".toList)).1 3 6 (by decide)

/-- C6: the URL inserted into the base href attribute and into the iframe src
attribute goes through escapeHtml, which substitutes the HTML entity for every
occurrence of the four characters and leaves no raw <, > or double quote in
the inserted attribute value. -/
theorem url_escaping (u : List Char) :
    escapeHtml u = escapeHtmlSpec u
    ∧ (escapeHtml u).all notSpecial = true
    ∧ baseTag u = ("<base href=\"").toList ++ escapeHtml u ++ ("\">").toList
    ∧ iframeHtml u = iframeSegA ++ u ++ (iframeSegB ++ (escapeHtml u ++ iframeSegC)) :=
  ⟨escapeHtml_eq_spec u, escapeHtml_no_special u, rfl, rfl⟩

/-- C7: a non-2xx GET status makes fetchHtmlAndInjectBase fail with the error
message carrying the numeric status and the reason phrase, and activate then
shows the error document with that message HTML-escaped instead of a fetched
page or a blank panel. -/
theorem fetch_failure_escaped (res : FetchResponse) (targetUrl : List Char)
    (h : resOk res.status = false) :
    fetchHtmlAndInjectBase res targetUrl
        = Except.error (httpErrorMessage res.status res.statusText)
    ∧ notEmbeddableDocument res targetUrl
        = errHead ++ escapeHtml (httpErrorMessage res.status res.statusText) ++ errTail
    ∧ strContains (httpErrorMessage res.status res.statusText)
        ((Nat.repr res.status).toList) = true
    ∧ strContains (httpErrorMessage res.status res.statusText) res.statusText = true := by
  refine ⟨?_, ?_, ?_, ?_⟩
  · simp [fetchHtmlAndInjectBase, h]
  · simp [notEmbeddableDocument, fetchHtmlAndInjectBase, h]
  · exact strContains_append_middle (("HTTP ").toList) ((Nat.repr res.status).toList)
      ((" ").toList ++ res.statusText)
  · have h4 := strContains_append_middle
        ((("HTTP ").toList) ++ ((Nat.repr res.status).toList ++ (" ").toList))
        res.statusText []
    simpa [httpErrorMessage, List.append_assoc] using h4

/-- Witness for C7 at a 404 Not Found response. -/
theorem fetch_failure_witness :
    fetchHtmlAndInjectBase ⟨404, ("Not Found").toList, ("<p>x</p>").toList⟩
        (("https://e.com").toList)
        = Except.error (httpErrorMessage 404 (("Not Found").toList))
    ∧ notEmbeddableDocument ⟨404, ("Not Found").toList, ("<p>x</p>").toList⟩
        (("https://e.com").toList)
        = errHead ++ escapeHtml (httpErrorMessage 404 (("Not Found").toList)) ++ errTail
    ∧ strContains (httpErrorMessage 404 (("Not Found").toList)) ((Nat.repr 404).toList) = true
    ∧ strContains (httpErrorMessage 404 (("Not Found").toList)) (("Not Found").toList) = true :=
  fetch_failure_escaped ⟨404, ("Not Found").toList, ("<p>x</p>").toList⟩
    (("https://e.com").toList) (by decide)

/-- C8: the input is rejected only when it is empty (so it trims to the empty
string); an accepted input becomes the trimmed string, prefixed with https://
exactly when no http(s) scheme is present, and the accepted URL always carries
an http(s) scheme and is non-empty. -/
theorem input_normalization (input : List Char) :
    (normalizeInput input = InputResult.rejected → trimWs input = [])
    ∧ (∀ t, normalizeInput input = InputResult.accepted t →
        t = (if hasHttpScheme (trimWs input) then trimWs input
             else httpsScheme ++ trimWs input)
        ∧ hasHttpScheme t = true
        ∧ t.isEmpty = false) := by
  constructor
  · intro h
    cases input with
    | nil => rfl
    | cons c cs =>
        by_cases hsch : hasHttpScheme (trimWs (c :: cs)) = true
        · simp [normalizeInput, hsch] at h
        · simp [normalizeInput, hsch] at h
  · intro t h
    cases input with
    | nil => simp [normalizeInput] at h
    | cons c cs =>
        cases hsch : hasHttpScheme (trimWs (c :: cs)) with
        | true =>
            have hred : normalizeInput (c :: cs)
                = InputResult.accepted (trimWs (c :: cs)) := by
              simp [normalizeInput, hsch]
            have ht := InputResult.accepted.inj (hred.symm.trans h)
            subst ht
            refine ⟨by simp [hsch], hsch, ?_⟩
            cases htr : trimWs (c :: cs) with
            | nil => rw [htr] at hsch; exact absurd hsch (by decide)
            | cons a b => rfl
        | false =>
            have hred : normalizeInput (c :: cs)
                = InputResult.accepted (httpsScheme ++ trimWs (c :: cs)) := by
              simp [normalizeInput, hsch]
            have ht := InputResult.accepted.inj (hred.symm.trans h)
            subst ht
            refine ⟨by simp [hsch], ?_, ?_⟩
            · have key : toLowerList (httpsScheme ++ trimWs (c :: cs))
                  = ("https://").toList ++ toLowerList (trimWs (c :: cs)) := by
                simp only [toLowerList, List.map_append]
                rw [show List.map Char.toLower httpsScheme = ("https://").toList by decide]
              have hpre := isPrefixOf_append_self (("https://").toList)
                (toLowerList (trimWs (c :: cs)))
              simp [hasHttpScheme, key, hpre]
            · cases hx : httpsScheme ++ trimWs (c :: cs) with
              | nil => exact absurd (List.append_eq_nil.mp hx).1 (by decide)
              | cons a b => rfl

/-- Witness for C8 at the bare host input example.com. -/
theorem input_normalization_witness :
    ("https://example.com".toList
        = (if hasHttpScheme (trimWs ("example.com".toList)) then trimWs ("example.com".toList)
           else httpsScheme ++ trimWs ("example.com".toList)))
    ∧ hasHttpScheme ("https://example.com".toList) = true
    ∧ ("https://example.com".toList).isEmpty = false :=
  (input_normalization ("example.com".toList)).2 ("https://example.com".toList) (by decide)

/-- iframeSegB up to the start of the iframe element. -/
def iframeSegBpre : List Char :=
  (" http: https: data:; style-src \x27unsafe-inline\x27 http: https:; script-src \x27unsafe-inline\x27 http: https:;\">\n    <style>html,body,iframe\x7bheight:100%;margin:0;padding:0;border:0\x7d iframe\x7bwidth:100%;\x7d</style>\n  </head>\n  <body>\n    ").toList

/-- iframeSegC after the closing iframe tag. -/
def iframeTailC : List Char := ("\n  </body>\n</html>").toList

/-- C9: for every target URL classified Embeddable the emitted document is the
iframe document: it contains an iframe element whose src attribute is the
HTML-escaped target URL, and it is independent of the fetch response, so it
contains no fetched copy of the target body. -/
theorem embeddable_emits_iframe (targetUrl : List Char) (probe : ProbeOutcome)
    (res res2 : FetchResponse)
    (h : embedDecision probe = EmbedDecision.Embeddable) :
    previewDocument targetUrl probe res = iframeHtml targetUrl
    ∧ strContains (previewDocument targetUrl probe res)
        (("<iframe src=\"").toList ++ (escapeHtml targetUrl
          ++ ("\" frameborder=\"0\"></iframe>").toList)) = true
    ∧ previewDocument targetUrl probe res = previewDocument targetUrl probe res2 := by
  have hb : isEmbeddableOutcome probe = true := by
    cases hx : isEmbeddableOutcome probe with
    | true => rfl
    | false => simp [embedDecision, hx] at h
  have hdoc : ∀ r : FetchResponse,
      previewDocument targetUrl probe r = iframeHtml targetUrl := by
    intro r; simp [previewDocument, hb]
  refine ⟨hdoc res, ?_, (hdoc res).trans (hdoc res2).symm⟩
  rw [hdoc res]
  simp only [iframeHtml]
  rw [show iframeSegB = iframeSegBpre ++ ("<iframe src=\"").toList from by decide]
  rw [show iframeSegC = ("\" frameborder=\"0\"></iframe>").toList ++ iframeTailC
      from by decide]
  have key := strContains_append_middle (iframeSegA ++ (targetUrl ++ iframeSegBpre))
    (("<iframe src=\"").toList ++ (escapeHtml targetUrl
      ++ ("\" frameborder=\"0\"></iframe>").toList))
    iframeTailC
  simpa [List.append_assoc] using key

/-- Witness for C9 at a URL whose probe returned no restrictive headers, with
two different fetch responses. -/
theorem embeddable_iframe_witness :
    previewDocument ("https://example.com".toList) (ProbeOutcome.success [])
        ⟨200, "OK".toList, "<p>hi</p>".toList⟩ = iframeHtml ("https://example.com".toList)
    ∧ strContains (previewDocument ("https://example.com".toList) (ProbeOutcome.success [])
          ⟨200, "OK".toList, "<p>hi</p>".toList⟩)
        (("<iframe src=\"").toList ++ (escapeHtml ("https://example.com".toList)
          ++ ("\" frameborder=\"0\"></iframe>").toList)) = true
    ∧ previewDocument ("https://example.com".toList) (ProbeOutcome.success [])
          ⟨200, "OK".toList, "<p>hi</p>".toList⟩
        = previewDocument ("https://example.com".toList) (ProbeOutcome.success [])
          ⟨500, "Err".toList, "other".toList⟩ :=
  embeddable_emits_iframe ("https://example.com".toList) (ProbeOutcome.success [])
    ⟨200, "OK".toList, "<p>hi</p>".toList⟩ ⟨500, "Err".toList, "other".toList⟩ (by decide)

/-- C10: the classification of a successful probe depends only on the
x-frame-options and content-security-policy lookups: two header sets that
agree on those two lookups classify identically, whatever other headers are
present. -/
theorem classifier_depends_on_two_headers (hs1 hs2 : Headers)
    (h1 : getHeader hs1 xfoName = getHeader hs2 xfoName)
    (h2 : getHeader hs1 cspName = getHeader hs2 cspName) :
    classify hs1 = classify hs2
    ∧ embedDecision (ProbeOutcome.success hs1)
        = embedDecision (ProbeOutcome.success hs2) := by
  have hc : classify hs1 = classify hs2 := by
    unfold classify xfoBlocked cspBlocked
    rw [h1, h2]
  exact ⟨hc, by simp [embedDecision, isEmbeddableOutcome, hc]⟩

/-- Witness for C10 at two header sets that agree on the two relevant headers
but differ in an extra server header. -/
theorem classifier_two_headers_witness :
    classify [("X-Frame-Options".toList, "DENY".toList), ("server".toList, "nginx".toList)]
        = classify [("x-frame-options".toList, "DENY".toList)]
    ∧ embedDecision (ProbeOutcome.success
          [("X-Frame-Options".toList, "DENY".toList), ("server".toList, "nginx".toList)])
        = embedDecision (ProbeOutcome.success [("x-frame-options".toList, "DENY".toList)]) :=
  classifier_depends_on_two_headers _ _ (by decide) (by decide)

end UrlPreview
